import Mathlib

set_option autoImplicit false

namespace ConfigSpec

/-- Strings are modelled as lists of characters (`String` in Lean 4 wraps a
`List Char`); Go slicing and byte-length are recovered through `utf8Len`. -/
abbrev Str := List Char

/-- Go `unicode.IsSpace`: the Unicode White_Space property set. -/
def goIsSpace (c : Char) : Bool :=
  decide ((9 ≤ c.toNat ∧ c.toNat ≤ 13) ∨ c.toNat = 32 ∨ c.toNat = 133 ∨
    c.toNat = 160 ∨ c.toNat = 0x1680 ∨ (0x2000 ≤ c.toNat ∧ c.toNat ≤ 0x200A) ∨
    c.toNat = 0x2028 ∨ c.toNat = 0x2029 ∨ c.toNat = 0x202F ∨
    c.toNat = 0x205F ∨ c.toNat = 0x3000)

/-- Go `len` on a string: its UTF-8 byte length. -/
def utf8Len (s : Str) : Nat := s.foldl (fun n c => n + c.utf8Size) 0

/-- Go `strings.TrimLeftFunc(s, f)`. -/
def trimLeftF (f : Char → Bool) (s : Str) : Str := s.dropWhile f

/-- Go `strings.TrimRightFunc(s, f)`. -/
def trimRightF (f : Char → Bool) (s : Str) : Str := (s.reverse.dropWhile f).reverse

/-- Go `strings.TrimSpace`. -/
def trimSpace (s : Str) : Str := trimRightF goIsSpace (trimLeftF goIsSpace s)

/-! ### Association-list model of Go maps

A Go `map[string]string` (resp. `map[string]*Config`) is modelled as an
association list with unique keys: `mapGet` is map indexing, `mapSet` is map
assignment (replacing in place when the key is present). -/

/-- Go map indexing `v, ok := m[k]`. -/
def mapGet {α : Type} : List (Str × α) → Str → Option α
  | [], _ => none
  | (k', v) :: rest, k => if k' = k then some v else mapGet rest k

/-- Go map assignment `m[k] = v`: replace in place or append. -/
def mapSet {α : Type} : List (Str × α) → Str → α → List (Str × α)
  | [], k, v => [(k, v)]
  | (k', v') :: rest, k, v =>
    if k' = k then (k, v) :: rest else (k', v') :: mapSet rest k v

/-! ### Line classifier (`isComment` / `isEmpty` / `isKeyValue` / `isName`,
`parseKeyValue` / `parseName`), translated from the source. -/

/-- `isComment`: `strings.HasPrefix(line, "#")`, i.e. the first character
is `'#'`. -/
def isComment (line : Str) : Bool :=
  decide (line.head? = some '#')

/-- `isEmpty`: `line == ""`. -/
def isEmpty (line : Str) : Bool := line.isEmpty

/-- `isKeyValue`: `strings.ContainsRune(line, '=') && len(line) >= 3`
(`len` is the UTF-8 byte length). -/
def isKeyValue (line : Str) : Bool :=
  line.contains '=' && decide (3 ≤ utf8Len line)

/-- `isName`: `strings.HasSuffix(line, ":") && len(line) >= 2`.  A byte-level
suffix `":"` is the same as the last character being `':'`, since `':'` is
ASCII and no UTF-8 continuation byte equals it. -/
def isName (line : Str) : Bool :=
  decide (line.getLast? = some ':') && decide (2 ≤ utf8Len line)

/-- `strings.SplitN(line, "=", 2)`: the part before the first `'='` and the
part after it.  The source only calls this (via `parseKeyValue`) on lines that
contain a `'='`; on a line without `'='` this total model returns
`(line, [])`. -/
def splitFirstEq : Str → Str × Str
  | [] => ([], [])
  | c :: rest =>
    if c = '=' then ([], rest)
    else
      let p := splitFirstEq rest
      (c :: p.1, p.2)

/-- `parseKeyValue`: split at the first `'='`, trim trailing whitespace from
the key part and leading whitespace from the value part. -/
def parseKeyValue (line : Str) : Str × Str :=
  let p := splitFirstEq line
  (trimRightF goIsSpace p.1, trimLeftF goIsSpace p.2)

/-- `parseName`: `strings.TrimRightFunc(line, func(r rune) bool { return ':' == r || unicode.IsSpace(r) })`. -/
def parseName (line : Str) : Str :=
  trimRightF (fun r => decide (r = ':') || goIsSpace r) line

/-! ### The parser `Read` -/

/-- The five ways `Read`'s if-chain can treat a trimmed line, in the order
the source checks them. -/
inductive LineClass
  | comment
  | empty
  | keyValue
  | name
  | unrecognized
deriving DecidableEq, Repr

/-- The classification `Read`'s if-chain performs on a trimmed line:
comment, then empty, then key-value, then section name, else unrecognized. -/
def classify (t : Str) : LineClass :=
  if isComment t then .comment
  else if isEmpty t then .empty
  else if isKeyValue t then .keyValue
  else if isName t then .name
  else .unrecognized

/-- The data of the `fmt.Errorf("unrecognized input at line %d: %s", lnum, line)`
error: the 1-based line number and the trimmed offending line. -/
structure ReadErr where
  lnum : Nat
  text : Str
deriving DecidableEq, Repr

/-- One section's key/value store (the `m` field of a Go `Config`). -/
abbrev CMap := List (Str × Str)

/-- The result map of `Read`: section name to key/value store. -/
abbrev SMap := List (Str × CMap)

/-- Writing `cfg.m[key] = value` where `cfg` is the `*Config` registered in
`m` under the name `cur`: update that section's store in place. -/
def updateSec : SMap → Str → Str → Str → SMap
  | [], _, _, _ => []
  | (name, c) :: rest, cur, k, v =>
    if name = cur then (name, mapSet c k v) :: rest
    else (name, c) :: updateSec rest cur k v

/-- The loop body of `Read`, one step per line chunk.  `lnum` is the 1-based
number of the line at the head (Go increments `lnum` before processing),
`cur` is the name of the current section (`cfg` in the source always points
at the Config registered under `cur`). -/
def readLines : List Str → Nat → Str → SMap → Except ReadErr SMap
  | [], _, _, m => .ok m
  | line :: rest, lnum, cur, m =>
    let t := trimSpace line
    if isComment t || isEmpty t then
      readLines rest (lnum + 1) cur m
    else if isKeyValue t then
      let kv := parseKeyValue t
      readLines rest (lnum + 1) cur (updateSec m cur kv.1 kv.2)
    else if isName t then
      let name := parseName t
      readLines rest (lnum + 1) name
        (if (mapGet m name).isSome then m else mapSet m name [])
    else
      .error ⟨lnum, t⟩

/-- The chunks `bufio.ReadString('\n')` hands to the loop: segments of the
input split at each `'\n'`, with a final (possibly empty) segment at EOF.
The source keeps the `'\n'` terminator inside each chunk and then trims it
away with `strings.TrimSpace`; since every chunk here is consumed only
through `trimSpace`, dropping the terminator at the split is equivalent. -/
def splitLines : Str → List Str
  | [] => [[]]
  | c :: rest =>
    if c = '\n' then [] :: splitLines rest
    else
      match splitLines rest with
      | [] => [[c]]
      | l :: ls => (c :: l) :: ls

/-- `Read`: start with the default section `""` registered and current,
then process every line chunk. -/
def Read (input : Str) : Except ReadErr SMap :=
  readLines (splitLines input) 1 [] [([], [])]

/-! ### Error identities of the typed-access layer

The accessors return one of three distinguishable errors: the two package
sentinels `ErrKeyNotFound` and `ErrParseValue`, or an error produced by the
standard-library conversion (for example a `*strconv.NumError` carrying the
function name, the input, and syntax-vs-range) which the accessors pass
through unchanged. -/

/-- Error identities observable from the typed accessors. -/
inductive CfgError
  /-- The `ErrKeyNotFound` sentinel. -/
  | keyNotFound
  /-- The `ErrParseValue` sentinel. -/
  | parseValue
  /-- A pass-through standard-library conversion error, e.g.
  `*strconv.NumError{Func, Num, Err}`; `isRange` is true for `ErrRange`,
  false for `ErrSyntax`. -/
  | wrapped (fn : Str) (num : Str) (isRange : Bool)
deriving DecidableEq, Repr

deriving instance DecidableEq for Except

/-! ### Models of the standard-library conversions the accessors call -/

/-- `strconv.ParseBool`: the exact token set accepted by Go. -/
def goParseBool (s : Str) : Except CfgError Bool :=
  if s ∈ ["1".data, "t".data, "T".data, "true".data, "TRUE".data, "True".data] then
    .ok true
  else if s ∈ ["0".data, "f".data, "F".data, "false".data, "FALSE".data, "False".data] then
    .ok false
  else
    .error (.wrapped "ParseBool".data s false)

/-- The numeric value of a string of decimal digits. -/
def digitsVal (s : Str) : Nat :=
  s.foldl (fun a c => a * 10 + (c.toNat - '0'.toNat)) 0

/-- `strconv.ParseUint(s, 10, bitSize)`: no sign character is accepted, the
body must be one or more decimal digits, and the value must fit in `bitSize`
bits (`bitSize = 0` means the native `uint` width, 64 here).  On failure Go
returns a `*strconv.NumError`, never the package sentinels. -/
def goParseUint (s : Str) (bitSize : Nat) : Except CfgError Nat :=
  let bs := if bitSize = 0 then 64 else bitSize
  if s.isEmpty then .error (.wrapped "ParseUint".data s false)
  else if s.all Char.isDigit then
    if digitsVal s < 2 ^ bs then .ok (digitsVal s)
    else .error (.wrapped "ParseUint".data s true)
  else .error (.wrapped "ParseUint".data s false)

/-- `strconv.ParseInt(s, 10, bitSize)`: an optional `'+'`/`'-'` sign followed
by one or more decimal digits, range-checked against the signed width. -/
def goParseInt (s : Str) (bitSize : Nat) : Except CfgError Int :=
  let bs := if bitSize = 0 then 64 else bitSize
  match s with
  | [] => .error (.wrapped "ParseInt".data s false)
  | c :: rest =>
    let neg : Bool := c = '-'
    let digits := if c = '+' ∨ c = '-' then rest else s
    if digits.isEmpty then .error (.wrapped "ParseInt".data s false)
    else if digits.all Char.isDigit then
      if neg then
        if digitsVal digits ≤ 2 ^ (bs - 1) then .ok (-(digitsVal digits : Int))
        else .error (.wrapped "ParseInt".data s true)
      else
        if digitsVal digits < 2 ^ (bs - 1) then .ok (digitsVal digits : Int)
        else .error (.wrapped "ParseInt".data s true)
    else .error (.wrapped "ParseInt".data s false)

/-! ### Model of `net.ParseIP` -/

/-- A parsed IP: either four IPv4 octets or sixteen IPv6 bytes. -/
inductive IPAddr
  | v4 (bytes : List Nat)
  | v6 (bytes : List Nat)
deriving DecidableEq, Repr

/-- Split a string at every occurrence of `sep`. -/
def splitOnCh (sep : Char) : Str → List Str
  | [] => [[]]
  | c :: rest =>
    if c = sep then [] :: splitOnCh sep rest
    else
      match splitOnCh sep rest with
      | [] => [[c]]
      | l :: ls => (c :: l) :: ls

/-- One dotted-decimal IPv4 field: one or more decimal digits, no leading
zero (except `"0"` itself), value at most 255. -/
def v4Field (f : Str) : Option Nat :=
  if f.isEmpty then none
  else if f.all Char.isDigit then
    if 2 ≤ f.length ∧ f.head? = some '0' then none
    else if digitsVal f ≤ 255 then some (digitsVal f)
    else none
  else none

/-- Go `parseIPv4`: exactly four dot-separated fields. -/
def goParseIPv4 (s : Str) : Option (List Nat) :=
  match splitOnCh '.' s with
  | [a, b, c, d] =>
    match v4Field a, v4Field b, v4Field c, v4Field d with
    | some na, some nb, some nc, some nd => some [na, nb, nc, nd]
    | _, _, _, _ => none
  | _ => none

/-- The numeric value of one hexadecimal digit, if `c` is one. -/
def hexDigit (c : Char) : Option Nat :=
  if c.isDigit then some (c.toNat - '0'.toNat)
  else if 'a' ≤ c ∧ c ≤ 'f' then some (c.toNat - 'a'.toNat + 10)
  else if 'A' ≤ c ∧ c ≤ 'F' then some (c.toNat - 'A'.toNat + 10)
  else none

/-- Go `xtoi`: read leading hexadecimal digits; yields the value, the count
of digits read, and the rest of the string; fails when there is no digit or
the value reaches Go's `big` cutoff `0xFFFFFF`. -/
def xtoiAux : Str → Nat → Nat → Option (Nat × Nat × Str)
  | [], n, cnt => if cnt = 0 then none else some (n, cnt, [])
  | c :: rest, n, cnt =>
    match hexDigit c with
    | none => if cnt = 0 then none else some (n, cnt, c :: rest)
    | some d =>
      if 0xFFFFFF ≤ n * 16 + d then none
      else xtoiAux rest (n * 16 + d) (cnt + 1)

/-- Entry point of `xtoi`. -/
def xtoi (s : Str) : Option (Nat × Nat × Str) := xtoiAux s 0 0

/-- The epilogue of Go `parseIPv6`: the input must be exhausted; fewer than
16 bytes require a `"::"` whose position `e` receives the missing zero
bytes; a full 16 bytes forbid a `"::"`. -/
def v6Finish (i : Nat) (ell : Option Nat) (acc : List Nat) (s : Str) :
    Option (List Nat) :=
  if ¬s.isEmpty then none
  else if i < 16 then
    match ell with
    | none => none
    | some e => some (acc.take e ++ List.replicate (16 - i) 0 ++ acc.drop e)
  else
    match ell with
    | some _ => none
    | none => some acc

/-- The loop of Go `parseIPv6` over the remaining input `s`, with `i` bytes
already accumulated in `acc` and `ell` the byte position of a `"::"` seen so
far.  `fuel` bounds the recursion; every iteration consumes at least one
character of `s`, so `s.length + 1` fuel suffices. -/
def parseV6Loop : Nat → Str → Nat → Option Nat → List Nat → Option (List Nat)
  | 0, _, _, _, _ => none
  | fuel + 1, s, i, ell, acc =>
    if 16 ≤ i then v6Finish i ell acc s
    else
      match xtoi s with
      | none => none
      | some (n, _, rest) =>
        if 0xFFFF < n then none
        else if rest.head? = some '.' then
          if (ell.isNone ∧ i ≠ 12) ∨ 16 < i + 4 then none
          else
            match goParseIPv4 s with
            | none => none
            | some bs => v6Finish (i + 4) ell (acc ++ bs) []
        else
          let acc' := acc ++ [n / 256, n % 256]
          if rest.isEmpty then v6Finish (i + 2) ell acc' []
          else
            match rest with
            | ':' :: rest2 =>
              if rest2.isEmpty then none
              else
                match rest2 with
                | ':' :: rest3 =>
                  if ell.isSome then none
                  else if rest3.isEmpty then v6Finish (i + 2) (some (i + 2)) acc' []
                  else parseV6Loop fuel rest3 (i + 2) (some (i + 2)) acc'
                | _ => parseV6Loop fuel rest2 (i + 2) ell acc'
            | _ => none

/-- Go `parseIPv6`: an optional leading `"::"` then the group loop. -/
def goParseIPv6 (s : Str) : Option (List Nat) :=
  match s with
  | ':' :: ':' :: rest =>
    if rest.isEmpty then some (List.replicate 16 0)
    else parseV6Loop (rest.length + 1) rest 0 (some 0) []
  | _ => parseV6Loop (s.length + 1) s 0 none []

/-- The dispatch loop of Go `net.ParseIP`: scan for the first `'.'` or
`':'`; `some true` means a `'.'` came first (IPv4), `some false` a `':'`
(IPv6), `none` that neither occurs. -/
def ipDispatch : Str → Option Bool
  | [] => none
  | '.' :: _ => some true
  | ':' :: _ => some false
  | _ :: rest => ipDispatch rest

/-- Go `net.ParseIP`: `nil` (here `none`) when the text is not a valid
IPv4 or IPv6 address. -/
def goParseIP (s : Str) : Option IPAddr :=
  match ipDispatch s with
  | some true => (goParseIPv4 s).map .v4
  | some false => (goParseIPv6 s).map .v6
  | none => none

/-! ### The `Config` typed-access layer

Each fallible Go accessor `(val T, err error)` becomes
`Except CfgError T`; each `OrDefault` accessor returns its
`(value, usedDefault)` pair directly.  `GoBool` is a synonym for `Bool`
used inside the `Config` namespace, where the bare name `Bool` would
resolve to the accessor `Config.Bool`. -/

/-- Synonym for `Bool` usable inside the `Config` namespace. -/
abbrev GoBool := Bool

/-- `Config`: a set of key/value pairs. -/
structure Config where
  m : CMap
deriving DecidableEq, Repr

/-- `Set`: adds a key/value pair, replacing the value if the key exists. -/
def Config.Set (c : Config) (key val : Str) : Config :=
  ⟨mapSet c.m key val⟩

/-- `String`: the raw lookup; `ErrKeyNotFound` when the key is absent. -/
def Config.String (c : Config) (key : Str) : Except CfgError Str :=
  match mapGet c.m key with
  | none => .error .keyNotFound
  | some v => .ok v

/-- `StringOrDefault`. -/
def Config.StringOrDefault (c : Config) (key d : Str) : Str × GoBool :=
  match c.String key with
  | .error _ => (d, true)
  | .ok v => (v, false)

/-- `Bool`: lookup then `strconv.ParseBool`. -/
def Config.Bool (c : Config) (key : Str) : Except CfgError GoBool :=
  match c.String key with
  | .error e => .error e
  | .ok s => goParseBool s

/-- `BoolOrDefault`. -/
def Config.BoolOrDefault (c : Config) (key : Str) (d : GoBool) : GoBool × GoBool :=
  match c.Bool key with
  | .error _ => (d, true)
  | .ok v => (v, false)

/-- `Int64`: lookup then `strconv.ParseInt(str, 10, 64)`. -/
def Config.Int64 (c : Config) (key : Str) : Except CfgError Int :=
  match c.String key with
  | .error e => .error e
  | .ok s => goParseInt s 64

/-- `Int64OrDefault`. -/
def Config.Int64OrDefault (c : Config) (key : Str) (d : Int) : Int × GoBool :=
  match c.Int64 key with
  | .error _ => (d, true)
  | .ok v => (v, false)

/-- `Uint`: lookup then `strconv.ParseUint(str, 10, 0)` (`0` = native
width, 64 bits here) narrowed by the identity `uint(u64)`. -/
def Config.Uint (c : Config) (key : Str) : Except CfgError Nat :=
  match c.String key with
  | .error e => .error e
  | .ok s => goParseUint s 0

/-- `UintOrDefault`. -/
def Config.UintOrDefault (c : Config) (key : Str) (d : Nat) : Nat × GoBool :=
  match c.Uint key with
  | .error _ => (d, true)
  | .ok v => (v, false)

/-- `Uint32`: lookup then `strconv.ParseUint(str, 10, 32)` narrowed by
`uint32(u64)` (lossless thanks to the width check). -/
def Config.Uint32 (c : Config) (key : Str) : Except CfgError Nat :=
  match c.String key with
  | .error e => .error e
  | .ok s => goParseUint s 32

/-- `Uint32OrDefault`. -/
def Config.Uint32OrDefault (c : Config) (key : Str) (d : Nat) : Nat × GoBool :=
  match c.Uint32 key with
  | .error _ => (d, true)
  | .ok v => (v, false)

/-- `Uint64`: lookup then `strconv.ParseUint(str, 10, 64)`. -/
def Config.Uint64 (c : Config) (key : Str) : Except CfgError Nat :=
  match c.String key with
  | .error e => .error e
  | .ok s => goParseUint s 64

/-- `Uint64OrDefault`. -/
def Config.Uint64OrDefault (c : Config) (key : Str) (d : Nat) : Nat × GoBool :=
  match c.Uint64 key with
  | .error _ => (d, true)
  | .ok v => (v, false)

/-- `IP`: lookup then `net.ParseIP`; a `nil` parse result is turned into
the `ErrParseValue` sentinel — this accessor (unlike the strconv-backed
ones) returns the sentinel itself on a malformed value. -/
def Config.IP (c : Config) (key : Str) : Except CfgError IPAddr :=
  match c.String key with
  | .error e => .error e
  | .ok s =>
    match goParseIP s with
    | none => .error .parseValue
    | some ip => .ok ip

/-- `IPOrDefault`. -/
def Config.IPOrDefault (c : Config) (key : Str) (d : IPAddr) : IPAddr × GoBool :=
  match c.IP key with
  | .error _ => (d, true)
  | .ok v => (v, false)

/-- Modelled from the spec: the `TimeOfDay` accessor's implementation is
missing from src (only its unit tests appear there).  Per the spec the
stored value has the form `HH:MM` — colon-separated, each half a base-10
integer — and must additionally satisfy `0 ≤ hour ≤ 23` and
`0 ≤ minute ≤ 59`; an absent key fails with `ErrKeyNotFound` and a
malformed or out-of-range value fails with the value-parse error. -/
def Config.TimeOfDay (c : Config) (key : Str) : Except CfgError (Int × Int) :=
  match c.String key with
  | .error e => .error e
  | .ok s =>
    match splitOnCh ':' s with
    | [hs, ms] =>
      match goParseInt hs 0, goParseInt ms 0 with
      | .ok h, .ok mi =>
        if 0 ≤ h ∧ h ≤ 23 ∧ 0 ≤ mi ∧ mi ≤ 59 then .ok (h, mi)
        else .error .parseValue
      | _, _ => .error .parseValue
    | _ => .error .parseValue

/-- Modelled from the spec: `TimeOfDayOrDefault` substitutes both default
halves together on any error from `TimeOfDay`. -/
def Config.TimeOfDayOrDefault (c : Config) (key : Str) (dh dm : Int) :
    Int × Int × GoBool :=
  match c.TimeOfDay key with
  | .error _ => (dh, dm, true)
  | .ok v => (v.1, v.2, false)

/-- The first line (with its 1-based number and trimmed text) that `Read`'s
if-chain classifies as unrecognized, if any; `n` is the 1-based number of
the line at the head of the list. -/
def firstBad : List Str → Nat → Option (Nat × Str)
  | [], _ =>  none
  | l :: rest, n =>
    if classify (trimSpace l) = .unrecognized then some (n, trimSpace l)
    else firstBad rest (n + 1)

/-- A sample configuration mirroring the `TimeOfDay` unit test's section. -/
def todSample : Config :=
  ⟨[("timeofday_1".data, "11:26".data), ("timeofday_2".data, "25:01".data),
    ("timeofday_3".data, "13:70".data), ("timeofday_4".data, "foxtrot".data)]⟩

/-! ## Helper lemmas -/

/-- One step of `readLines` follows the classification of the trimmed line. -/
theorem readLines_cons (line : Str) (rest : List Str) (n : Nat) (cur : Str)
    (m : SMap) :
    readLines (line :: rest) n cur m =
      match classify (trimSpace line) with
      | .comment => readLines rest (n + 1) cur m
      | .empty => readLines rest (n + 1) cur m
      | .keyValue =>
        readLines rest (n + 1) cur
          (updateSec m cur (parseKeyValue (trimSpace line)).1
            (parseKeyValue (trimSpace line)).2)
      | .name =>
        readLines rest (n + 1) (parseName (trimSpace line))
          (if (mapGet m (parseName (trimSpace line))).isSome then m
           else mapSet m (parseName (trimSpace line)) [])
      | .unrecognized => .error ⟨n, trimSpace line⟩ := by
  by_cases hc : isComment (trimSpace line) <;>
    by_cases he : isEmpty (trimSpace line) <;>
      by_cases hk : isKeyValue (trimSpace line) <;>
        by_cases hn : isName (trimSpace line) <;>
          simp [readLines, classify, hc, he, hk, hn]

/-- `mapGet` after `mapSet`. -/
theorem mapGet_mapSet {α : Type} (m : List (Str × α)) (k : Str) (v : α)
    (k' : Str) :
    mapGet (mapSet m k v) k' = if k = k' then some v else mapGet m k' := by
  induction m with
  | nil => simp [mapSet, mapGet]
  | cons p rest ih =>
    obtain ⟨pk, pv⟩ := p
    by_cases h1 : pk = k
    · simp only [mapSet, if_pos h1, mapGet]
      by_cases h2 : k = k'
      · simp [h2]
      · have hpk : ¬pk = k' := fun h => h2 (h1 ▸ h)
        simp [h2, hpk]
    · simp only [mapSet, if_neg h1, mapGet]
      by_cases h2 : pk = k'
      · have hkk : ¬k = k' := fun h => h1 (h ▸ h2)
        simp [h2, hkk]
      · simp [h2, ih]

/-- `updateSec` changes no key's presence. -/
theorem mapGet_updateSec_isSome (m : SMap) (cur k v k' : Str) :
    (mapGet (updateSec m cur k v) k').isSome = (mapGet m k').isSome := by
  induction m with
  | nil => rfl
  | cons p rest ih =>
    obtain ⟨pk, pv⟩ := p
    by_cases h1 : pk = cur
    · simp only [updateSec, if_pos h1, mapGet]
      by_cases h2 : pk = k' <;> simp [h2]
    · simp only [updateSec, if_neg h1, mapGet]
      by_cases h2 : pk = k' <;> simp [h2, ih]

/-- If every line classifies as one of the four recognised shapes,
`readLines` succeeds, and no section present at the start is lost. -/
theorem readLines_ok_of_classified (lines : List Str) :
    ∀ (n : Nat) (cur : Str) (m : SMap),
    (∀ l ∈ lines, classify (trimSpace l) ≠ .unrecognized) →
    ∃ m', readLines lines n cur m = .ok m' ∧
      ∀ k, (mapGet m k).isSome = true → (mapGet m' k).isSome = true := by
  induction lines with
  | nil => exact fun n cur m _ => ⟨m, rfl, fun k hk => hk⟩
  | cons line rest ih =>
    intro n cur m h
    have hl : classify (trimSpace line) ≠ .unrecognized :=
      h line (List.mem_cons_self _ _)
    have hr : ∀ l ∈ rest, classify (trimSpace l) ≠ .unrecognized :=
      fun l hl' => h l (List.mem_cons_of_mem _ hl')
    rw [readLines_cons]
    rcases hcl : classify (trimSpace line) with _ | _ | _ | _ | _
    · exact ih (n + 1) cur m hr
    · exact ih (n + 1) cur m hr
    · obtain ⟨m', hok, hpres⟩ := ih (n + 1) cur
        (updateSec m cur (parseKeyValue (trimSpace line)).1
          (parseKeyValue (trimSpace line)).2) hr
      refine ⟨m', hok, fun k hk => hpres k ?_⟩
      rw [mapGet_updateSec_isSome]
      exact hk
    · set name := parseName (trimSpace line) with hname
      obtain ⟨m', hok, hpres⟩ := ih (n + 1) name
        (if (mapGet m name).isSome then m else mapSet m name []) hr
      refine ⟨m', hok, fun k hk => hpres k ?_⟩
      by_cases hs : (mapGet m name).isSome
      · rw [if_pos hs]
        exact hk
      · rw [if_neg hs, mapGet_mapSet]
        by_cases he : name = k <;> simp [he, hk]
    · exact absurd hcl hl

/-- If some line fails to classify, `readLines` fails with the 1-based
number and trimmed text of the first such line (`n` is the 1-based number
of the head of `lines`). -/
theorem readLines_error_of_bad (lines : List Str) :
    ∀ (n : Nat) (cur : Str) (m : SMap),
    (∃ l ∈ lines, classify (trimSpace l) = .unrecognized) →
    ∃ i l, lines[i]? = some l ∧ classify (trimSpace l) = .unrecognized ∧
      (∀ j l', j < i → lines[j]? = some l' →
        classify (trimSpace l') ≠ .unrecognized) ∧
      readLines lines n cur m = .error ⟨n + i, trimSpace l⟩ := by
  induction lines with
  | nil =>
    rintro n cur m ⟨l, hl, _⟩
    cases hl
  | cons line rest ih =>
    intro n cur m hex
    by_cases hl : classify (trimSpace line) = .unrecognized
    · refine ⟨0, line, by simp, hl, ?_, ?_⟩
      · intro j l' hj _
        exact absurd hj (Nat.not_lt_zero j)
      · rw [readLines_cons, hl]
        simp
    · have hex' : ∃ l ∈ rest, classify (trimSpace l) = .unrecognized := by
        rcases hex with ⟨l, hmem, hcl⟩
        rcases List.mem_cons.mp hmem with rfl | hmem'
        · exact absurd hcl hl
        · exact ⟨l, hmem', hcl⟩
      have lift : ∀ (cur' : Str) (m' : SMap),
          readLines (line :: rest) n cur m = readLines rest (n + 1) cur' m' →
          ∃ i l, (line :: rest)[i]? = some l ∧
            classify (trimSpace l) = .unrecognized ∧
            (∀ j l', j < i → (line :: rest)[j]? = some l' →
              classify (trimSpace l') ≠ .unrecognized) ∧
            readLines (line :: rest) n cur m = .error ⟨n + i, trimSpace l⟩ := by
        intro cur' m' hstep
        obtain ⟨i, l, hget, hbad, hmin, herr⟩ := ih (n + 1) cur' m' hex'
        refine ⟨i + 1, l, by simpa using hget, hbad, ?_, ?_⟩
        · intro j l' hj hget'
          cases j with
          | zero =>
            simp only [List.getElem?_cons_zero, Option.some.injEq] at hget'
            rw [← hget']
            exact hl
          | succ j' =>
            exact hmin j' l' (by omega) (by simpa using hget')
        · rw [hstep]
          have harith : n + 1 + i = n + (i + 1) := by omega
          rw [harith] at herr
          exact herr
      rcases hcl : classify (trimSpace line) with _ | _ | _ | _ | _
      · exact lift cur m (by rw [readLines_cons, hcl])
      · exact lift cur m (by rw [readLines_cons, hcl])
      · exact lift cur
          (updateSec m cur (parseKeyValue (trimSpace line)).1
            (parseKeyValue (trimSpace line)).2)
          (by rw [readLines_cons, hcl])
      · exact lift (parseName (trimSpace line))
          (if (mapGet m (parseName (trimSpace line))).isSome then m
           else mapSet m (parseName (trimSpace line)) [])
          (by rw [readLines_cons, hcl])
      · exact absurd hcl hl

/-- `splitFirstEq` splits exactly at the first `'='`. -/
theorem splitFirstEq_of_not_mem (a b : Str) (h : '=' ∉ a) :
    splitFirstEq (a ++ '=' :: b) = (a, b) := by
  induction a with
  | nil => simp [splitFirstEq]
  | cons c a' ih =>
    have hc : ¬c = '=' := fun hh => h (by rw [hh]; exact List.mem_cons_self _ _)
    have h' : '=' ∉ a' := fun hm => h (List.mem_cons_of_mem _ hm)
    simp [splitFirstEq, hc, ih h']

/-- A key-value-shaped line is nonempty. -/
theorem isEmpty_false_of_isKeyValue (t : Str) (h : isKeyValue t = true) :
    isEmpty t = false := by
  cases t with
  | nil => simp [isKeyValue, utf8Len] at h
  | cons c r => rfl

/-! ## Claims -/

/-- C3: whenever every trimmed line classifies as one of
comment/empty/key-value/section-name, `Read` succeeds and the default
section `""` is present in the result; the empty input and a
comments-and-blanks-only input yield exactly the mapping with a single
empty `""` Config. -/
theorem c3_default_section_present :
    (∀ s : Str,
      (∀ l ∈ splitLines s, classify (trimSpace l) ≠ .unrecognized) →
      ∃ m, Read s = .ok m ∧ (mapGet m []).isSome = true) ∧
    Read [] = .ok [([], [])] ∧
    Read "# only a comment\n\n".data = .ok [([], [])] := by
  refine ⟨?_, rfl, rfl⟩
  intro s h
  obtain ⟨m', hok, hpres⟩ :=
    readLines_ok_of_classified (splitLines s) 1 [] [([], [])] h
  exact ⟨m', hok, hpres [] rfl⟩

/-- Witness for C3 on a recognisable input with sections. -/
theorem c3_witness :
    ∃ m, Read "a=1\nsec:\nb=2\n".data = .ok m ∧ (mapGet m []).isSome = true :=
  (c3_default_section_present).1 "a=1\nsec:\nb=2\n".data (by decide)

/-- C4: if some trimmed line classifies as unrecognized, `Read` returns an
error — no mapping at all — whose data is the 1-based number of the first
such line together with its trimmed text. -/
theorem c4_unrecognized_fails (s : Str)
    (h : ∃ l ∈ splitLines s, classify (trimSpace l) = .unrecognized) :
    ∃ i l, (splitLines s)[i]? = some l ∧
      classify (trimSpace l) = .unrecognized ∧
      (∀ j l', j < i → (splitLines s)[j]? = some l' →
        classify (trimSpace l') ≠ .unrecognized) ∧
      Read s = .error ⟨i + 1, trimSpace l⟩ ∧
      ∀ m, Read s ≠ .ok m := by
  obtain ⟨i, l, hget, hbad, hmin, herr⟩ :=
    readLines_error_of_bad (splitLines s) 1 [] [([], [])] h
  rw [Nat.add_comm 1 i] at herr
  refine ⟨i, l, hget, hbad, hmin, herr, ?_⟩
  intro m hm
  simp only [Read] at hm
  rw [herr] at hm
  cases hm

/-- Witness for C4: line 2 (`"???"`) is the first unrecognized line. -/
theorem c4_witness :
    ∃ i l, (splitLines "a=1\n???\nb=2".data)[i]? = some l ∧
      classify (trimSpace l) = .unrecognized ∧
      (∀ j l', j < i → (splitLines "a=1\n???\nb=2".data)[j]? = some l' →
        classify (trimSpace l') ≠ .unrecognized) ∧
      Read "a=1\n???\nb=2".data = .error ⟨i + 1, trimSpace l⟩ ∧
      ∀ m, Read "a=1\n???\nb=2".data ≠ .ok m :=
  c4_unrecognized_fails "a=1\n???\nb=2".data (by decide)

/-- C1, counterexample: the claim says every typed accessor surfaces a failed
conversion as the `ErrParseValue` sentinel.  `Bool` does not: on the present
key `"k"` whose stored value `"xyz"` fails boolean conversion, it returns the
`strconv.ParseBool` error unchanged, which is not the sentinel. -/
theorem c1_counterexample :
    (Config.mk [("k".data, "xyz".data)]).String "k".data = .ok "xyz".data ∧
    (Config.mk [("k".data, "xyz".data)]).Bool "k".data =
      .error (.wrapped "ParseBool".data "xyz".data false) ∧
    (Config.mk [("k".data, "xyz".data)]).Bool "k".data ≠
      .error CfgError.parseValue :=
  ⟨rfl, rfl, by decide⟩

/-- C1, amended: when a present key's stored value fails conversion, the
error is always distinct from `ErrKeyNotFound`, so callers can still tell
"absent" from "malformed"; but only the `IP` accessor returns the
`ErrParseValue` sentinel itself — a strconv-backed accessor such as `Bool`
passes through the underlying conversion error, which is neither sentinel. -/
theorem c1_amended (c : Config) (k s : Str) (hs : c.String k = .ok s) :
    (goParseIP s = none →
      c.IP k = .error .parseValue ∧
      CfgError.parseValue ≠ CfgError.keyNotFound) ∧
    (∀ e, c.Bool k = .error e →
      e = .wrapped "ParseBool".data s false ∧
      e ≠ .keyNotFound ∧ e ≠ .parseValue) := by
  constructor
  · intro hip
    refine ⟨?_, by decide⟩
    simp only [Config.IP, hs, hip]
  · intro e he
    simp only [Config.Bool, hs, goParseBool] at he
    split_ifs at he with h1 h2
    cases he
    exact ⟨rfl, by simp, by simp⟩

/-- Witness for C1's amended theorem: a present key with the non-IP,
non-boolean value `"foxtrot"`. -/
theorem c1_amended_witness :
    ((Config.mk [("k".data, "foxtrot".data)]).IP "k".data =
        .error .parseValue ∧
      CfgError.parseValue ≠ CfgError.keyNotFound) ∧
    ((CfgError.wrapped "ParseBool".data "foxtrot".data false) =
        .wrapped "ParseBool".data "foxtrot".data false ∧
      (CfgError.wrapped "ParseBool".data "foxtrot".data false) ≠ .keyNotFound ∧
      (CfgError.wrapped "ParseBool".data "foxtrot".data false) ≠ .parseValue) :=
  ⟨(c1_amended ⟨[("k".data, "foxtrot".data)]⟩ "k".data "foxtrot".data rfl).1 rfl,
    (c1_amended ⟨[("k".data, "foxtrot".data)]⟩ "k".data "foxtrot".data rfl).2 _ rfl⟩

/-- C9: the unsigned accessors `Uint`, `Uint32`, `Uint64` on a stored value
with a leading `'-'` always return the `strconv.ParseUint` failure — a
value-parse error distinct from `ErrKeyNotFound` (the sentinel-vs-wrapped
identity question is C1's subject) — and never a wrapped unsigned value. -/
theorem c9_unsigned_reject_negative (c : Config) (k s : Str)
    (hs : c.String k = .ok ('-' :: s)) :
    c.Uint k = .error (.wrapped "ParseUint".data ('-' :: s) false) ∧
    c.Uint32 k = .error (.wrapped "ParseUint".data ('-' :: s) false) ∧
    c.Uint64 k = .error (.wrapped "ParseUint".data ('-' :: s) false) ∧
    (∀ v, c.Uint k ≠ .ok v) ∧ (∀ v, c.Uint32 k ≠ .ok v) ∧
    (∀ v, c.Uint64 k ≠ .ok v) ∧
    CfgError.wrapped "ParseUint".data ('-' :: s) false ≠
      CfgError.keyNotFound := by
  have hd : ('-' :: s).all Char.isDigit = false := by
    simp [List.all_cons, show Char.isDigit '-' = false from rfl]
  have hu : ∀ bs, goParseUint ('-' :: s) bs =
      .error (.wrapped "ParseUint".data ('-' :: s) false) := by
    intro bs
    simp [goParseUint, hd]
  have h0 : c.Uint k = .error (.wrapped "ParseUint".data ('-' :: s) false) := by
    simp only [Config.Uint, hs, hu]
  have h32 : c.Uint32 k = .error (.wrapped "ParseUint".data ('-' :: s) false) := by
    simp only [Config.Uint32, hs, hu]
  have h64 : c.Uint64 k = .error (.wrapped "ParseUint".data ('-' :: s) false) := by
    simp only [Config.Uint64, hs, hu]
  refine ⟨h0, h32, h64, ?_, ?_, ?_, by simp⟩
  · intro v hv
    rw [h0] at hv
    cases hv
  · intro v hv
    rw [h32] at hv
    cases hv
  · intro v hv
    rw [h64] at hv
    cases hv

/-- C2 (against the spec-modelled `TimeOfDay`, whose implementation is
absent from src): a success is always two colon-separated base-10 integers
within `0 ≤ hour ≤ 23` and `0 ≤ minute ≤ 59`; stored `"25:01"` and
`"13:70"` fail despite both halves being integers, stored `"11:26"` yields
`(11, 26)`, and an absent key fails with `ErrKeyNotFound`. -/
theorem c2_timeofday (c : Config) (k : Str) :
    (c.String k = .ok "11:26".data → c.TimeOfDay k = .ok (11, 26)) ∧
    (c.String k = .ok "25:01".data → c.TimeOfDay k = .error .parseValue) ∧
    (c.String k = .ok "13:70".data → c.TimeOfDay k = .error .parseValue) ∧
    (c.String k = .error .keyNotFound → c.TimeOfDay k = .error .keyNotFound) ∧
    (∀ s h mi, c.String k = .ok s → c.TimeOfDay k = .ok (h, mi) →
      ∃ hs ms, splitOnCh ':' s = [hs, ms] ∧
        goParseInt hs 0 = .ok h ∧ goParseInt ms 0 = .ok mi ∧
        0 ≤ h ∧ h ≤ 23 ∧ 0 ≤ mi ∧ mi ≤ 59) := by
  refine ⟨?_, ?_, ?_, ?_, ?_⟩
  · intro h
    simp only [Config.TimeOfDay, h]
    rfl
  · intro h
    simp only [Config.TimeOfDay, h]
    rfl
  · intro h
    simp only [Config.TimeOfDay, h]
    rfl
  · intro h
    simp only [Config.TimeOfDay, h]
  · intro s h mi hsv htod
    simp only [Config.TimeOfDay, hsv] at htod
    split at htod
    · split at htod
      · split_ifs at htod with hcond
        cases htod
        next hs1 ms1 hsp _ _ hp1 hp2 =>
          exact ⟨hs1, ms1, hsp, hp1, hp2, hcond.1, hcond.2.1, hcond.2.2.1,
            hcond.2.2.2⟩
      · cases htod
    · cases htod

/-- Witness for C2 on the test's section contents. -/
theorem c2_witness :
    todSample.TimeOfDay "timeofday_1".data = .ok (11, 26) ∧
    todSample.TimeOfDay "timeofday_2".data = .error .parseValue ∧
    todSample.TimeOfDay "timeofday_3".data = .error .parseValue ∧
    todSample.TimeOfDay "timeofday_0".data = .error .keyNotFound :=
  ⟨(c2_timeofday todSample "timeofday_1".data).1 rfl,
    (c2_timeofday todSample "timeofday_2".data).2.1 rfl,
    (c2_timeofday todSample "timeofday_3".data).2.2.1 rfl,
    (c2_timeofday todSample "timeofday_0".data).2.2.2.1 rfl⟩

/-- C8: every `OrDefault` accessor modelled here returns `(default, true)`
whenever the underlying accessor fails — for any error, whether the key was
absent or the value unparsable — and `(value, false)` when it succeeds; by
its result type it never surfaces an error. -/
theorem c8_or_default (c : Config) (k : Str) :
    (∀ d e, c.String k = .error e → c.StringOrDefault k d = (d, true)) ∧
    (∀ d v, c.String k = .ok v → c.StringOrDefault k d = (v, false)) ∧
    (∀ d e, c.Bool k = .error e → c.BoolOrDefault k d = (d, true)) ∧
    (∀ d v, c.Bool k = .ok v → c.BoolOrDefault k d = (v, false)) ∧
    (∀ d e, c.Int64 k = .error e → c.Int64OrDefault k d = (d, true)) ∧
    (∀ d v, c.Int64 k = .ok v → c.Int64OrDefault k d = (v, false)) ∧
    (∀ d e, c.Uint k = .error e → c.UintOrDefault k d = (d, true)) ∧
    (∀ d v, c.Uint k = .ok v → c.UintOrDefault k d = (v, false)) ∧
    (∀ d e, c.Uint32 k = .error e → c.Uint32OrDefault k d = (d, true)) ∧
    (∀ d v, c.Uint32 k = .ok v → c.Uint32OrDefault k d = (v, false)) ∧
    (∀ d e, c.Uint64 k = .error e → c.Uint64OrDefault k d = (d, true)) ∧
    (∀ d v, c.Uint64 k = .ok v → c.Uint64OrDefault k d = (v, false)) ∧
    (∀ d e, c.IP k = .error e → c.IPOrDefault k d = (d, true)) ∧
    (∀ d v, c.IP k = .ok v → c.IPOrDefault k d = (v, false)) ∧
    (∀ dh dm e, c.TimeOfDay k = .error e →
      c.TimeOfDayOrDefault k dh dm = (dh, dm, true)) ∧
    (∀ dh dm v, c.TimeOfDay k = .ok v →
      c.TimeOfDayOrDefault k dh dm = (v.1, v.2, false)) := by
  refine ⟨?_, ?_, ?_, ?_, ?_, ?_, ?_, ?_, ?_, ?_, ?_, ?_, ?_, ?_, ?_, ?_⟩
  · intro d e h
    simp [Config.StringOrDefault, h]
  · intro d v h
    simp [Config.StringOrDefault, h]
  · intro d e h
    simp [Config.BoolOrDefault, h]
  · intro d v h
    simp [Config.BoolOrDefault, h]
  · intro d e h
    simp [Config.Int64OrDefault, h]
  · intro d v h
    simp [Config.Int64OrDefault, h]
  · intro d e h
    simp [Config.UintOrDefault, h]
  · intro d v h
    simp [Config.UintOrDefault, h]
  · intro d e h
    simp [Config.Uint32OrDefault, h]
  · intro d v h
    simp [Config.Uint32OrDefault, h]
  · intro d e h
    simp [Config.Uint64OrDefault, h]
  · intro d v h
    simp [Config.Uint64OrDefault, h]
  · intro d e h
    simp [Config.IPOrDefault, h]
  · intro d v h
    simp [Config.IPOrDefault, h]
  · intro dh dm e h
    simp [Config.TimeOfDayOrDefault, h]
  · intro dh dm v h
    simp [Config.TimeOfDayOrDefault, h]

/-- Witness for C8: a missing key falls back to the default with
`used = true`; a present parsable key returns its value with `used = false`. -/
theorem c8_witness :
    (Config.mk [("b".data, "true".data)]).StringOrDefault "q".data "d".data =
      ("d".data, true) ∧
    (Config.mk [("b".data, "true".data)]).BoolOrDefault "b".data false =
      (true, false) :=
  ⟨(c8_or_default ⟨[("b".data, "true".data)]⟩ "q".data).1 "d".data
      .keyNotFound rfl,
    (c8_or_default ⟨[("b".data, "true".data)]⟩ "b".data).2.2.2.1 false true rfl⟩

/-- C5: the parser classifies a trimmed line by checking, in this exact
order with first match winning, comment, empty, key-value, section-name,
else unrecognized (the five iff's — and `classify` being a function —
make the classification total and mutually exclusive); a line matching
both the key-value and section-name shapes is never classified as a
section name, and, unless it is a comment, `readLines` processes it as a
key-value line. -/
theorem c5_classification_priority (t : Str) :
    (classify t = .comment ↔ isComment t = true) ∧
    (classify t = .empty ↔ (isComment t = false ∧ isEmpty t = true)) ∧
    (classify t = .keyValue ↔
      (isComment t = false ∧ isEmpty t = false ∧ isKeyValue t = true)) ∧
    (classify t = .name ↔
      (isComment t = false ∧ isEmpty t = false ∧ isKeyValue t = false ∧
        isName t = true)) ∧
    (classify t = .unrecognized ↔
      (isComment t = false ∧ isEmpty t = false ∧ isKeyValue t = false ∧
        isName t = false)) ∧
    (isKeyValue t = true → isName t = true → classify t ≠ .name) ∧
    (∀ (rest : List Str) (n : Nat) (cur : Str) (m : SMap),
      isComment (trimSpace t) = false → isKeyValue (trimSpace t) = true →
      readLines (t :: rest) n cur m =
        readLines rest (n + 1) cur
          (updateSec m cur (parseKeyValue (trimSpace t)).1
            (parseKeyValue (trimSpace t)).2)) := by
  refine ⟨?_, ?_, ?_, ?_, ?_, ?_, ?_⟩
  · by_cases h1 : isComment t <;> by_cases h2 : isEmpty t <;>
      by_cases h3 : isKeyValue t <;> by_cases h4 : isName t <;>
        simp [classify, h1, h2, h3, h4]
  · by_cases h1 : isComment t <;> by_cases h2 : isEmpty t <;>
      by_cases h3 : isKeyValue t <;> by_cases h4 : isName t <;>
        simp [classify, h1, h2, h3, h4]
  · by_cases h1 : isComment t <;> by_cases h2 : isEmpty t <;>
      by_cases h3 : isKeyValue t <;> by_cases h4 : isName t <;>
        simp [classify, h1, h2, h3, h4]
  · by_cases h1 : isComment t <;> by_cases h2 : isEmpty t <;>
      by_cases h3 : isKeyValue t <;> by_cases h4 : isName t <;>
        simp [classify, h1, h2, h3, h4]
  · by_cases h1 : isComment t <;> by_cases h2 : isEmpty t <;>
      by_cases h3 : isKeyValue t <;> by_cases h4 : isName t <;>
        simp [classify, h1, h2, h3, h4]
  · intro hk hn
    have he := isEmpty_false_of_isKeyValue t hk
    by_cases h1 : isComment t <;> simp [classify, h1, he, hk]
  · intro rest n cur m hc hk
    have he := isEmpty_false_of_isKeyValue (trimSpace t) hk
    have hcl : classify (trimSpace t) = .keyValue := by
      simp [classify, hc, he, hk]
    rw [readLines_cons, hcl]

/-- Witness for C5: the line `"x=y:"` matches both the key-value and the
section-name shapes and is classified and processed as a key-value line. -/
theorem c5_witness :
    isKeyValue "x=y:".data = true ∧ isName "x=y:".data = true ∧
    classify "x=y:".data ≠ .name ∧
    readLines ["x=y:".data] 1 [] [([], [])] =
      readLines [] 2 []
        (updateSec [([], [])] [] (parseKeyValue "x=y:".data).1
          (parseKeyValue "x=y:".data).2) :=
  ⟨by decide, by decide,
    (c5_classification_priority "x=y:".data).2.2.2.2.2.1 (by decide) (by decide),
    (c5_classification_priority "x=y:".data).2.2.2.2.2.2 [] 1 [] [([], [])]
      (by decide) (by decide)⟩

/-- C6: `parseKeyValue` splits at the first `'='` only — the key part is
everything before it (which cannot contain `'='`), the value part
everything after it (which may contain further `'='`) — then trims only
trailing whitespace from the key and only leading whitespace from the
value, as the concrete instance `"  k = v=w  "` exhibits. -/
theorem c6_parse_key_value (a b : Str) (h : '=' ∉ a) :
    splitFirstEq (a ++ '=' :: b) = (a, b) ∧
    parseKeyValue (a ++ '=' :: b) =
      (trimRightF goIsSpace a, trimLeftF goIsSpace b) ∧
    parseKeyValue "  k = v=w  ".data = ("  k".data, "v=w  ".data) := by
  have hsp := splitFirstEq_of_not_mem a b h
  refine ⟨hsp, ?_, by decide⟩
  simp [parseKeyValue, hsp]

/-- Witness for C6 at `"key"` `"="` `"val=ue"`. -/
theorem c6_witness :
    splitFirstEq ("key".data ++ '=' :: "val=ue".data) =
      ("key".data, "val=ue".data) ∧
    parseKeyValue ("key".data ++ '=' :: "val=ue".data) =
      (trimRightF goIsSpace "key".data, trimLeftF goIsSpace "val=ue".data) ∧
    parseKeyValue "  k = v=w  ".data = ("  k".data, "v=w  ".data) :=
  c6_parse_key_value "key".data "val=ue".data (by decide)

/-- C7: re-entering an already-seen section name leaves the section map
unchanged and only switches the current section back to it, so keys from
separate visits accumulate in one Config; a repeated key within one
section is overwritten in place (last write wins), as both the general
`mapSet` law and the concrete two-visit input exhibit. -/
theorem c7_revisit_section :
    (∀ (line : Str) (rest : List Str) (n : Nat) (cur : Str) (m : SMap),
      classify (trimSpace line) = .name →
      (mapGet m (parseName (trimSpace line))).isSome = true →
      readLines (line :: rest) n cur m =
        readLines rest (n + 1) (parseName (trimSpace line)) m) ∧
    (∀ (m : CMap) (k v : Str), mapGet (mapSet m k v) k = some v) ∧
    Read "foo:\na = 1\nfoo:\nb = 2\na = 3".data =
      .ok [([], []),
        ("foo".data, [("a".data, "3".data), ("b".data, "2".data)])] := by
  refine ⟨?_, ?_, by decide⟩
  · intro line rest n cur m hcl hsome
    rw [readLines_cons, hcl, hsome]
    simp
  · intro m k v
    rw [mapGet_mapSet]
    simp

/-- Witness for C7: revisiting `"foo"` with a key already stored keeps the
map as it is. -/
theorem c7_witness :
    readLines ["foo:".data] 1 []
        [([], []), ("foo".data, [("x".data, "1".data)])] =
      readLines [] 2 "foo".data
        [([], []), ("foo".data, [("x".data, "1".data)])] ∧
    mapGet (mapSet [("a".data, "1".data)] "a".data "3".data) "a".data =
      some "3".data :=
  ⟨(c7_revisit_section).1 "foo:".data [] 1 []
      [([], []), ("foo".data, [("x".data, "1".data)])] (by decide) (by decide),
    (c7_revisit_section).2.1 [("a".data, "1".data)] "a".data "3".data⟩

/-- C10: a trimmed line made only of `':'` and whitespace characters that
ends in `':'` and has length at least two (such as `"::"`) is a section
marker whose parsed name is the empty string, so `Read` treats it as
re-selecting the always-present default section `""`; subsequent key/value
lines land in the existing `""` Config rather than a new section. -/
theorem c10_empty_name_marker :
    (∀ t : Str, (∀ c ∈ t, c = ':' ∨ goIsSpace c = true) →
      t.getLast? = some ':' → 2 ≤ utf8Len t →
      isName t = true ∧ parseName t = [] ∧ classify t = .name) ∧
    Read "a=1\n::\nb=2".data =
      .ok [([], [("a".data, "1".data), ("b".data, "2".data)])] := by
  refine ⟨?_, by decide⟩
  intro t hch hlast hlen
  have hnil : t ≠ [] := by
    intro hd
    rw [hd] at hlen
    simp [utf8Len] at hlen
  have hname : isName t = true := by
    simp [isName, hlast, hlen]
  have hpn : parseName t = [] := by
    have hall : ∀ c ∈ t.reverse, (decide (c = ':') || goIsSpace c) = true := by
      intro c hc
      rcases hch c (List.mem_reverse.mp hc) with h | h
      · simp [h]
      · simp [h]
    simp only [parseName, trimRightF]
    rw [List.reverse_eq_nil_iff, List.dropWhile_eq_nil_iff]
    exact hall
  refine ⟨hname, hpn, ?_⟩
  have hc : isComment t = false := by
    cases t with
    | nil => exact absurd rfl hnil
    | cons c r =>
      rcases hch c (List.mem_cons_self _ _) with h | h
      · simp [isComment, h]
      · simp only [isComment, List.head?_cons, Option.some.injEq,
          decide_eq_false_iff_not]
        intro hh
        rw [hh] at h
        exact absurd h (by decide)
  have hne : isEmpty t = false := by
    cases t with
    | nil => exact absurd rfl hnil
    | cons c r => rfl
  have hkv : isKeyValue t = false := by
    have : '=' ∉ t := by
      intro hm
      rcases hch '=' hm with h | h
      · cases h
      · cases h
    simp only [isKeyValue, Bool.and_eq_false_iff]
    left
    rw [← Bool.not_eq_true, List.elem_iff]
    exact this
  simp [classify, hc, hne, hkv, hname]

/-- Witness for C10 at the marker `"::"`. -/
theorem c10_witness :
    isName "::".data = true ∧ parseName "::".data = [] ∧
    classify "::".data = .name :=
  (c10_empty_name_marker).1 "::".data (by decide) (by decide) (by decide)

/-- Witness for C9 at the test's stored value `"-1234"`. -/
theorem c9_witness :
    (Config.mk [("k".data, "-1234".data)]).Uint "k".data =
      .error (.wrapped "ParseUint".data "-1234".data false) ∧
    (Config.mk [("k".data, "-1234".data)]).Uint64 "k".data =
      .error (.wrapped "ParseUint".data "-1234".data false) :=
  ⟨(c9_unsigned_reject_negative ⟨[("k".data, "-1234".data)]⟩ "k".data
      "1234".data rfl).1,
    (c9_unsigned_reject_negative ⟨[("k".data, "-1234".data)]⟩ "k".data
      "1234".data rfl).2.2.1⟩

end ConfigSpec
